import Mathlib

/-!
# DigitalOcean exporter: `errlimit.Error` and the wiring done by `main`

A shallow embedding of `errlimit/errlimit.go` and of the start-up sequence
of `main.go`.  Go strings are byte sequences: `len` counts bytes and
`s[:n]` cuts at a byte offset, whatever characters the bytes encode.
The resource collectors that `main` constructs live in package `collector`,
whose files are not at hand; their `Collect` is modelled from the
specification, on top of the embedded `errlimit.Error`.
-/

namespace DOExporter

/-! ## Go strings -/

/-- A Go `string`: an immutable sequence of bytes (not necessarily UTF-8). -/
abbrev GoString := List UInt8

/-- The bytes of a text, as the Go compiler stores a string literal (UTF-8). -/
def utf8 (cs : List Char) : GoString :=
  cs.flatMap String.utf8EncodeChar

/-- A Go string literal. -/
def lit (s : String) : GoString :=
  utf8 s.data

/-- Go's builtin `len` on a string: the number of bytes. -/
def len (s : GoString) : Nat :=
  s.length

deriving instance DecidableEq for Except

/-- A run-time panic of the Go program. -/
inductive Panic where
  | sliceBounds (hi length : Nat)
  | explicit (msg : GoString)
  | library (msg : GoString)
  deriving DecidableEq, Repr

/-- The slice expression `s[:hi]`: the first `hi` bytes, and a run-time
panic when `hi` is larger than `len(s)`. -/
def sliceTo (s : GoString) (hi : Nat) : Except Panic GoString :=
  if hi ≤ len s then .ok (s.take hi) else .error (.sliceBounds hi (len s))

/-! ## `errlimit.Error` -/

namespace errlimit

/-- A Go `error` interface value: `none` is `nil`, and `some msg` is an error
whose `Error()` method returns `msg`. -/
abbrev GoError := Option GoString

/-- The literal `"..."` appended to a truncated message. -/
def marker : GoString := lit "..."

/-- The function `Error` of `errlimit.go`. -/
def Error (err : GoError) : Except Panic GoString :=
  match err with
  | none => .ok (lit "")
  | some msg =>
    if len msg < 50 then
      .ok msg
    else
      match sliceTo msg 50 with
      | .error p => .error p
      | .ok head => .ok (head ++ marker)

end errlimit

namespace errors

/-- Go's `errors.New`: an error whose `Error()` method returns `text`. -/
def New (text : GoString) : errlimit.GoError :=
  some text

end errors

/-! ## `main.go`: configuration, logger, registry -/

/-- The struct `Config` of `main.go`, after `arg.MustParse` has filled it. -/
structure Config where
  Debug : Bool
  DigitalOceanToken : GoString
  SpacesAccessKeyID : GoString
  SpacesAccessKeySecret : GoString
  HTTPTimeout : Int
  WebAddr : GoString
  WebPath : GoString
  deriving DecidableEq

namespace oauth2

/-- The struct `oauth2.Token`; `main.go` sets only `AccessToken`. -/
structure Token where
  AccessToken : GoString
  deriving DecidableEq, Repr

end oauth2

/-- The method `Token` of `Config`: a token and a `nil` error (`none`). -/
def Config.Token (c : Config) : oauth2.Token × Option GoString :=
  ({ AccessToken := c.DigitalOceanToken }, none)

/-- Levels of `github.com/go-kit/log/level`. -/
inductive Level where
  | debug | info | warn | error
  deriving DecidableEq, Repr

/-- The two filter options `main` chooses between. -/
inductive FilterOption where
  | AllowInfo | AllowDebug
  deriving DecidableEq, Repr

/-- Whether `level.NewFilter` lets an event of the given level through:
`AllowInfo` squelches debug events, `AllowDebug` squelches nothing. -/
def FilterOption.allows : FilterOption → Level → Bool
  | .AllowDebug, _ => true
  | .AllowInfo, .debug => false
  | .AllowInfo, _ => true

/-- One line written by the logger: its level, its `msg` value and, when the
call passes one, the error. -/
structure LogEntry where
  level : Level
  msg : GoString
  err : Option GoString
  deriving DecidableEq, Repr

/-- The collectors `main` can hand to `MustRegister`. -/
inductive Kind where
  | Process | Go | Errors | Exporter
  | Account | App | Balance | DB | Domain | Droplet | FloatingIP | Image | Key
  | LoadBalancer | Snapshot | Volume | Kubernetes | Incident | Spaces
  deriving DecidableEq, Repr

/-- A constructed collector with the arguments its constructor received:
the shared counter `errors`, the API client, the per-call timeout (in
nanoseconds) and, for Spaces, the two access keys. -/
structure Collector where
  kind : Kind
  errors : Bool
  client : Bool
  timeout : Option Int
  keys : Option (GoString × GoString)
  deriving DecidableEq, Repr

/-- A constructor call `collector.NewXCollector(logger, errors, client, timeout)`. -/
def NewResourceCollector (kind : Kind) (timeout : Int) : Collector :=
  { kind := kind, errors := true, client := true, timeout := some timeout, keys := none }

/-- The call `collector.NewIncidentCollector(logger, errors, timeout)`: no client. -/
def NewIncidentCollector (timeout : Int) : Collector :=
  { kind := .Incident, errors := true, client := false, timeout := some timeout, keys := none }

/-- The call `collector.NewSpacesCollector(logger, errors, client, id, secret, timeout)`. -/
def NewSpacesCollector (id secret : GoString) (timeout : Int) : Collector :=
  { kind := .Spaces, errors := true, client := true, timeout := some timeout,
    keys := some (id, secret) }

/-- A collector built without the counter, the client or the timeout
(process and Go collectors, the counter itself, the exporter-info collector). -/
def NewPlainCollector (kind : Kind) : Collector :=
  { kind := kind, errors := false, client := false, timeout := none, keys := none }

/-- Conversion to `int64` with wrap-around. -/
def wrapInt64 (i : Int) : Int :=
  (i + 2 ^ 63) % 2 ^ 64 - 2 ^ 63

/-- The expression `time.Duration(c.HTTPTimeout) * time.Millisecond`, in nanoseconds. -/
def timeoutOf (c : Config) : Int :=
  wrapInt64 (wrapInt64 c.HTTPTimeout * 1000000)

/-- How `main` stands after start-up. -/
inductive Outcome where
  | serving
  | panicked (p : Panic)
  | exited (code : Nat)
  deriving DecidableEq, Repr

/-- The exit status of the process; `none` while it is serving.  An
unrecovered panic ends a Go program with status 2. -/
def Outcome.exitStatus : Outcome → Option Nat
  | .serving => none
  | .panicked _ => some 2
  | .exited code => some code

/-- What is outside the program: the result of `godo.New`, whether
`ServeMux` accepts a pattern given those registered before (it panics on an
invalid or conflicting one), and the error of `http.ListenAndServe` (`none`
while it keeps serving). -/
structure Env where
  godoNew : Option GoString
  muxRejects : List GoString → GoString → Option GoString
  listenAndServe : Option GoString

/-- The observable state `main` builds up: the lines logged, the token source
handed to `oauth2.NewClient`, whether `godo.New` returned a client, the
collectors registered, the patterns handled by the default mux, the address
passed to `http.ListenAndServe` once it is called, and how `main` stands. -/
structure Process where
  logs : List LogEntry
  tokenSource : Option Config
  client : Bool
  registry : List Collector
  patterns : List GoString
  listening : Option GoString
  outcome : Outcome

/-- The state at the first statement of `main`. -/
def Process.start : Process :=
  { logs := [], tokenSource := none, client := false, registry := [], patterns := [],
    listening := none, outcome := .serving }

/-- A call `level.X(logger).Log(...)` through the filter. -/
def Process.log (p : Process) (filter : FilterOption) (lvl : Level) (msg : GoString)
    (err : Option GoString) : Process :=
  if filter.allows lvl then
    { p with logs := p.logs ++ [{ level := lvl, msg := msg, err := err }] }
  else p

/-- A call `r.MustRegister(c)`; the descriptors of the collectors are taken to
be consistent, so that it does not panic. -/
def Process.MustRegister (p : Process) (c : Collector) : Process :=
  { p with registry := p.registry ++ [c] }

/-- The text of the warning about Spaces. -/
def spacesWarning : GoString :=
  lit "Spaces Access Key ID and Secret unset. Spaces buckets will not be collected"

/-- Lines 151-174 of `main.go`: the registry and its collectors. -/
def registerAll (c : Config) (p : Process) : Process :=
  let timeout := timeoutOf c
  let p := p.MustRegister (NewPlainCollector .Process)
  let p := p.MustRegister (NewPlainCollector .Go)
  let p := p.MustRegister (NewPlainCollector .Errors)
  let p := p.MustRegister (NewPlainCollector .Exporter)
  let p := p.MustRegister (NewResourceCollector .Account timeout)
  let p := p.MustRegister (NewResourceCollector .App timeout)
  let p := p.MustRegister (NewResourceCollector .Balance timeout)
  let p := p.MustRegister (NewResourceCollector .DB timeout)
  let p := p.MustRegister (NewResourceCollector .Domain timeout)
  let p := p.MustRegister (NewResourceCollector .Droplet timeout)
  let p := p.MustRegister (NewResourceCollector .FloatingIP timeout)
  let p := p.MustRegister (NewResourceCollector .Image timeout)
  let p := p.MustRegister (NewResourceCollector .Key timeout)
  let p := p.MustRegister (NewResourceCollector .LoadBalancer timeout)
  let p := p.MustRegister (NewResourceCollector .Snapshot timeout)
  let p := p.MustRegister (NewResourceCollector .Volume timeout)
  let p := p.MustRegister (NewResourceCollector .Kubernetes timeout)
  let p := p.MustRegister (NewIncidentCollector timeout)
  if c.SpacesAccessKeyID ≠ lit "" ∧ c.SpacesAccessKeySecret ≠ lit "" then
    p.MustRegister (NewSpacesCollector c.SpacesAccessKeyID c.SpacesAccessKeySecret timeout)
  else p

/-- A call `http.Handle(pattern, h)` or `http.HandleFunc(pattern, h)`. -/
def Process.handle (p : Process) (env : Env) (pattern : GoString) : Except Panic Process :=
  match env.muxRejects p.patterns pattern with
  | some why => .error (.library why)
  | none => .ok { p with patterns := p.patterns ++ [pattern] }

/-- Lines 176-203 of `main.go`: the three handlers and the listener. -/
def serve (c : Config) (env : Env) (filter : FilterOption) (p : Process) : Process :=
  match p.handle env c.WebPath with
  | .error why => { p with outcome := .panicked why }
  | .ok p =>
    match p.handle env (lit "/") with
    | .error why => { p with outcome := .panicked why }
    | .ok p =>
      match p.handle env (lit "/healthz") with
      | .error why => { p with outcome := .panicked why }
      | .ok p =>
        let p := p.log filter .info (lit "listening") none
        let p := { p with listening := some c.WebAddr }
        match env.listenAndServe with
        | some err =>
          let p := p.log filter .error (lit "http listenandserve error") (some err)
          { p with outcome := .exited 1 }
        | none => p

/-- The function `main` of `main.go`, from the parsed configuration on. -/
def main (c : Config) (env : Env) : Process :=
  let p := Process.start
  if c.DigitalOceanToken = lit "" then
    { p with outcome := .panicked (.explicit (lit "DigitalOcean Token is required")) }
  else
    let filterOption := if c.Debug then FilterOption.AllowDebug else FilterOption.AllowInfo
    let p := p.log filterOption .info (lit "starting digitalocean_exporter") none
    let p :=
      if c.SpacesAccessKeyID = lit "" ∧ c.SpacesAccessKeySecret = lit "" then
        p.log filterOption .warn spacesWarning none
      else p
    let p := { p with tokenSource := some c }
    match env.godoNew with
    | some err =>
      let p := p.log filterOption .error (lit "unable to create DigitalOcean API instance")
        (some err)
      { p with outcome := .exited 1 }
    | none =>
      let p := { p with client := true }
      let p := registerAll c p
      serve c env filterOption p

/-- The kinds of the collectors in the registry, in registration order. -/
def Process.kinds (p : Process) : List Kind :=
  p.registry.map Collector.kind

/-- How many times the warning about Spaces was logged. -/
def Process.spacesWarnings (p : Process) : Nat :=
  (p.logs.filter fun e => e.level = .warn ∧ e.msg = spacesWarning).length

/-- The collectors registered whatever the Spaces keys are. -/
def baseKinds : List Kind :=
  [.Process, .Go, .Errors, .Exporter, .Account, .App, .Balance, .DB, .Domain, .Droplet,
   .FloatingIP, .Image, .Key, .LoadBalancer, .Snapshot, .Volume, .Kubernetes, .Incident]

/-- A configuration with the defaults of `main` and the given token and
Spaces keys. -/
def configWith (token id secret : String) : Config :=
  { Debug := false, DigitalOceanToken := lit token, SpacesAccessKeyID := lit id,
    SpacesAccessKeySecret := lit secret, HTTPTimeout := 5000, WebAddr := lit ":9212",
    WebPath := lit "/metrics" }

/-- An environment in which `godo.New` succeeds, the mux accepts every
pattern and the listener keeps serving. -/
def quietEnv : Env :=
  { godoNew := none, muxRejects := fun _ _ => none, listenAndServe := none }

/-! ## The `/healthz` handler -/

/-- An incoming request. -/
structure Request where
  method : GoString
  path : GoString
  body : GoString
  deriving DecidableEq, Repr

/-- The calls a handler makes on its `http.ResponseWriter`. -/
inductive WriterCall where
  | setHeader (key value : GoString)
  | writeHeader (status : Nat)
  | write (body : GoString)
  deriving DecidableEq, Repr

/-- The state that exists while requests are served and that a handler
declared in `main` could reach: the configuration, the filter of the logger,
the registry and the values of the counter `errors` per collector label, and
whether the provider API answers. -/
structure Server where
  config : Config
  filter : FilterOption
  registry : List Collector
  errors : GoString → Nat
  apiReachable : Bool

/-- The status constant `http.StatusOK`. -/
def StatusOK : Nat := 200

/-- The handler of `/healthz` (lines 188-195): the calls on the writer and the
lines logged; `writeErr` is the error returned by `w.Write`, if any. -/
def healthz (srv : Server) (_r : Request) (writeErr : Option GoString) :
    List WriterCall × List LogEntry :=
  let calls := [WriterCall.setHeader (lit "Content-Type") (lit "text/html; charset=UTF-8")]
  let calls := calls ++ [WriterCall.writeHeader StatusOK]
  let calls := calls ++ [WriterCall.write (lit "ok")]
  match writeErr with
  | some err =>
    (calls, if srv.filter.allows .error then
        [{ level := .error, msg := lit "unable to write response", err := some err }] else [])
  | none => (calls, [])

/-- A server state with the given counter value for every label and the given
reachability of the API, on the default configuration. -/
def serverWith (count : Nat) (reachable : Bool) (registry : List Collector) : Server :=
  { config := configWith "dop_v1_0" "" "", filter := .AllowInfo, registry := registry,
    errors := fun _ => count, apiReachable := reachable }

/-- The status a handler set with `WriteHeader`, first call wins. -/
def statusOf : List WriterCall → Option Nat
  | [] => none
  | .writeHeader s :: _ => some s
  | _ :: rest => statusOf rest

/-- The body a handler wrote: the concatenation of its `Write` calls. -/
def bodyOf : List WriterCall → GoString
  | [] => []
  | .write b :: rest => b ++ bodyOf rest
  | _ :: rest => bodyOf rest

/-! ## Resource collectors -/

namespace collector

/-- Modelled from the spec: the package `collector` (the `Collect` method of
the resource collectors) is not among the source files.  A failed call
against the provider API: a timeout of the per-call deadline or any other
failure, with the message of the error. -/
inductive ApiFailure where
  | timeout
  | failed (msg : GoString)
  deriving DecidableEq, Repr

/-- Modelled from the spec: the message of a failed call of package
`collector`, not among the source files. -/
def ApiFailure.message : ApiFailure → GoString
  | .timeout => lit "context deadline exceeded"
  | .failed msg => msg

/-- A provider record, opaque to the collector. -/
abbrev Record := GoString

/-- The answer to the request for one page of a list call. -/
abbrev Page := Except ApiFailure (List Record)

/-- The provider API during one scrape: for a collector label and a record
type, the answers of the successive page requests. -/
abbrev Api := GoString → GoString → List Page

/-- Modelled from the spec: the paginated list call of package `collector`
(not among the source files): all pages are fetched before anything is
emitted, and a failure on any page fails the record type. -/
def fetchAll : List Page → Except ApiFailure (List Record)
  | [] => .ok []
  | .error e :: _ => .error e
  | .ok recs :: rest =>
    match fetchAll rest with
    | .error e => .error e
    | .ok more => .ok (recs ++ more)

/-- A metric sample, with the collector and the record type it came from. -/
structure Sample where
  collector : GoString
  recordType : GoString
  name : GoString
  value : Int
  deriving DecidableEq, Repr

/-- Modelled from the spec: a resource collector of package `collector` (not
among the source files): its label in the error counter, the record types it
serves, and its deterministic mapping of a record to metric names and values. -/
structure ResourceCollector where
  label : GoString
  recordTypes : List GoString
  toSamples : GoString → Record → List (GoString × Int)

/-- What a scrape accumulates: the samples emitted so far, the shared error
counter per collector label, and the lines logged. -/
structure ScrapeState where
  samples : List Sample
  errors : GoString → Nat
  logs : List LogEntry

/-- The samples a collector emits for the records of one record type. -/
def samplesOf (k : ResourceCollector) (rt : GoString) (recs : List Record) : List Sample :=
  recs.flatMap fun r =>
    (k.toSamples rt r).map fun nv =>
      { collector := k.label, recordType := rt, name := nv.1, value := nv.2 }

/-- The counter method `WithLabelValues(label).Inc()`. -/
def inc (errors : GoString → Nat) (label : GoString) : GoString → Nat :=
  fun l => if l = label then errors l + 1 else errors l

/-- Modelled from the spec: `Collect` of package `collector` (not among the
source files) for one record type.  On a failed call it logs the summary
made by `errlimit.Error` and increments the counter under the collector's
label, emitting nothing; otherwise it emits the samples of the records. -/
def collectType (k : ResourceCollector) (api : Api) (st : ScrapeState) (rt : GoString) :
    Except Panic ScrapeState :=
  match fetchAll (api k.label rt) with
  | .error e =>
    match errlimit.Error (errors.New e.message) with
    | .error p => .error p
    | .ok summary =>
      .ok { st with
        logs := st.logs ++ [{ level := .warn, msg := rt, err := some summary }]
        errors := inc st.errors k.label }
  | .ok recs => .ok { st with samples := st.samples ++ samplesOf k rt recs }

/-- Modelled from the spec: `Collect` of package `collector` (not among the
source files) over the record types of a collector, each independently. -/
def collectTypes (k : ResourceCollector) (api : Api) :
    List GoString → ScrapeState → Except Panic ScrapeState
  | [], st => .ok st
  | rt :: rest, st =>
    match collectType k api st rt with
    | .error p => .error p
    | .ok st => collectTypes k api rest st

/-- Modelled from the spec: the method `Collect` of a resource collector of
package `collector`, not among the source files. -/
def Collect (k : ResourceCollector) (api : Api) (st : ScrapeState) : Except Panic ScrapeState :=
  collectTypes k api k.recordTypes st

/-- Modelled from the spec: the fan-out of the registry over its collectors
(the handler of `promhttp`, not among the source files). -/
def collectAll (api : Api) : List ResourceCollector → ScrapeState → Except Panic ScrapeState
  | [], st => .ok st
  | k :: rest, st =>
    match Collect k api st with
    | .error p => .error p
    | .ok st => collectAll api rest st

/-- Modelled from the spec: one scrape cycle over the registered resource
collectors (not among the source files): samples are produced afresh, the
error counter and the log carry over. -/
def scrape (api : Api) (registry : List ResourceCollector) (errors : GoString → Nat)
    (logs : List LogEntry) : Except Panic ScrapeState :=
  collectAll api registry { samples := [], errors := errors, logs := logs }

/-- Every sample emitted so far comes from a record type whose list call
succeeded. -/
def Clean (api : Api) (st : ScrapeState) : Prop :=
  ∀ s ∈ st.samples, ∃ recs, fetchAll (api s.collector s.recordType) = .ok recs

/-- The state `st2` continues `st1`: no sample is withdrawn, no counter
decreases, and the samples stay those of successful calls. -/
def Extends (api : Api) (st1 st2 : ScrapeState) : Prop :=
  (∀ s ∈ st1.samples, s ∈ st2.samples) ∧ (∀ l, st1.errors l ≤ st2.errors l) ∧
  (Clean api st1 → Clean api st2)

/-- A provider API whose list of databases times out on its second page when
`fails` is set, and which answers every other list call with two pages. -/
def sampleApi (fails : Bool) : Api :=
  fun _ rt =>
    if fails ∧ rt = lit "databases" then [.ok [lit "db-1"], .error .timeout]
    else [.ok [lit "a", lit "b"], .ok [lit "c"]]

/-- A collector serving two record types, each record giving one sample. -/
def sampleCollector : ResourceCollector :=
  { label := lit "database", recordTypes := [lit "databases", lit "replicas"],
    toSamples := fun rt r => [(rt ++ lit "_up" ++ r, 1)] }

end collector

/-! ## Properties of `errlimit.Error` -/

namespace errlimit

theorem marker_bytes : marker = [46, 46, 46] := by decide

theorem len_marker : len marker = 3 := by decide

theorem Error_short (msg : GoString) (h : len msg < 50) : Error (some msg) = .ok msg := by
  simp [Error, h]

theorem Error_long (msg : GoString) (h : 50 ≤ len msg) :
    Error (some msg) = .ok (msg.take 50 ++ marker) := by
  have h' : ¬ len msg < 50 := Nat.not_lt.mpr h
  simp [Error, sliceTo, h, h']

theorem Error_returns (err : GoError) : ∃ s, Error err = .ok s := by
  cases err with
  | none => exact ⟨lit "", rfl⟩
  | some msg =>
    by_cases h : len msg < 50
    · exact ⟨msg, Error_short msg h⟩
    · exact ⟨msg.take 50 ++ marker, Error_long msg (Nat.not_lt.mp h)⟩

theorem utf8_cons (c : Char) (cs : List Char) :
    utf8 (c :: cs) = String.utf8EncodeChar c ++ utf8 cs := by
  simp [utf8]

theorem encode_ascii (c : Char) (h : c.toNat < 128) :
    ∃ b, String.utf8EncodeChar c = [b] := by
  have hv : c.val ≤ 0x7f := by
    rw [UInt32.le_def]
    have : c.val.toNat < 128 := h
    change c.val.toNat ≤ 127
    omega
  exact ⟨c.val.toUInt8, by simp [String.utf8EncodeChar, hv]⟩

theorem take_utf8_ascii (cs : List Char) (n : Nat) (h : ∀ c ∈ cs.take n, c.toNat < 128) :
    (utf8 cs).take n = utf8 (cs.take n) := by
  induction cs generalizing n with
  | nil => simp [utf8]
  | cons c cs ih =>
    cases n with
    | zero => simp [utf8]
    | succ n =>
      obtain ⟨b, hb⟩ := encode_ascii c (h c (by simp))
      have ih' := ih n (fun d hd => h d (by simp [hd]))
      simp [utf8_cons, hb, ih']

theorem Error_fixed (s : GoString) (h : Error (some s) = .ok s ∨ ∃ m, 50 ≤ len m ∧ s = m.take 50 ++ marker) :
    Error (some s) = .ok s := by
  rcases h with h | ⟨m, hm, rfl⟩
  · exact h
  · have hlen : (List.take 50 m).length = 50 := by
      simp only [len] at hm
      simp [List.length_take, hm]
    have h50 : 50 ≤ len (List.take 50 m ++ marker) := by
      simp [len, List.length_append, hlen]
    rw [Error_long _ h50, List.take_append_of_le_length (Nat.le_of_eq hlen.symm)]
    simp [List.take_take]

/-- C1 (amended to bytes): for every non-nil error whose message has at least 50
bytes, `Error` returns exactly the first 50 bytes of the message followed by
the marker `"..."`; when the first 50 characters of the message are all ASCII,
these bytes are the first 50 characters. -/
theorem Error_keeps_first_50_bytes (msg : GoString) (h : 50 ≤ len msg) :
    Error (some msg) = .ok (msg.take 50 ++ lit "...") ∧
    ∀ cs : List Char, msg = utf8 cs → (∀ c ∈ cs.take 50, c.toNat < 128) →
      Error (some msg) = .ok (utf8 (cs.take 50) ++ lit "...") := by
  refine ⟨Error_long msg h, ?_⟩
  intro cs hcs hascii
  rw [Error_long msg h, hcs, take_utf8_ascii cs 50 hascii]
  rfl

theorem Error_keeps_first_50_bytes_witness :
    50 ≤ len (utf8 (List.replicate 60 'x')) ∧
    Error (some (utf8 (List.replicate 60 'x'))) = .ok (utf8 (List.replicate 50 'x') ++ lit "...") :=
  ⟨by decide,
   (Error_keeps_first_50_bytes (utf8 (List.replicate 60 'x')) (by decide)).2
     (List.replicate 60 'x') rfl (by decide)⟩

/-- C1 as stated fails: a message of 50 two-byte characters has length at least
50 both in characters and in bytes, and `Error` returns its first 50 bytes,
which are its first 25 characters, not its first 50 characters. -/
theorem Error_first_50_characters_counterexample :
    50 ≤ (List.replicate 50 'é').length ∧
    50 ≤ len (utf8 (List.replicate 50 'é')) ∧
    Error (some (utf8 (List.replicate 50 'é'))) =
      .ok (utf8 (List.replicate 25 'é') ++ lit "...") ∧
    Error (some (utf8 (List.replicate 50 'é'))) ≠
      .ok (utf8 ((List.replicate 50 'é').take 50) ++ lit "...") := by
  decide

/-- C2: for every non-nil error whose message is shorter than 50 bytes, `Error`
returns the message unchanged. -/
theorem Error_short_unchanged (msg : GoString) (h : len msg < 50) :
    Error (some msg) = .ok msg :=
  Error_short msg h

theorem Error_short_unchanged_witness :
    len (lit "can't list keys") < 50 ∧
    Error (some (lit "can't list keys")) = .ok (lit "can't list keys") :=
  ⟨by decide, Error_short_unchanged (lit "can't list keys") (by decide)⟩

theorem Error_at_50 (msg : GoString) (h : len msg = 50) :
    Error (some msg) = .ok (msg ++ marker) := by
  have h1 := Error_long msg (Nat.le_of_eq h.symm)
  have h2 : List.take 50 msg = msg := List.take_of_length_le (Nat.le_of_eq h)
  rw [h1, h2]

/-- C3 (amended to bytes): for every non-nil error, `Error` appends the marker
when the message is longer than 50 bytes and returns the message unchanged,
without marker, when it is shorter than 50 bytes; the part of the result
before any marker is a prefix of the message of at most 50 bytes. -/
theorem Error_marker_by_byte_length (msg : GoString) :
    (50 < len msg → Error (some msg) = .ok (msg.take 50 ++ marker)) ∧
    (len msg < 50 →
      Error (some msg) = .ok msg ∧ Error (some msg) ≠ .ok (msg ++ marker)) ∧
    ∃ body, body <+: msg ∧ len body ≤ 50 ∧
      (Error (some msg) = .ok body ∨ Error (some msg) = .ok (body ++ marker)) := by
  refine ⟨?_, ?_, ?_⟩
  · intro h
    exact Error_long msg (Nat.le_of_lt h)
  · intro h
    refine ⟨Error_short msg h, ?_⟩
    rw [Error_short msg h]
    intro heq
    have hl := congrArg List.length (Except.ok.inj heq)
    rw [List.length_append, show List.length marker = 3 from len_marker] at hl
    omega
  · by_cases h : len msg < 50
    · exact ⟨msg, List.prefix_refl msg, Nat.le_of_lt h, Or.inl (Error_short msg h)⟩
    · exact ⟨msg.take 50, List.take_prefix 50 msg, by simp [len, List.length_take],
        Or.inr (Error_long msg (Nat.not_lt.mp h))⟩

theorem Error_marker_by_byte_length_witness :
    50 < len (utf8 (List.replicate 60 'x')) ∧
    Error (some (utf8 (List.replicate 60 'x'))) =
      .ok ((utf8 (List.replicate 60 'x')).take 50 ++ marker) ∧
    len (lit "timeout") < 50 ∧
    Error (some (lit "timeout")) = .ok (lit "timeout") :=
  ⟨by decide,
   (Error_marker_by_byte_length (utf8 (List.replicate 60 'x'))).1 (by decide),
   by decide,
   ((Error_marker_by_byte_length (lit "timeout")).2.1 (by decide)).1⟩

/-- C3 as stated fails: a message of 30 two-byte characters does not exceed 50
characters and yet gets the marker after its first 25 characters; and a
message of exactly 50 one-byte characters is not returned unchanged (the
marker is appended to all of it). -/
theorem Error_marker_iff_exceeds_counterexample :
    (¬ 50 < (List.replicate 30 'é').length ∧
      Error (some (utf8 (List.replicate 30 'é'))) =
        .ok (utf8 (List.replicate 25 'é') ++ marker) ∧
      Error (some (utf8 (List.replicate 30 'é'))) ≠ .ok (utf8 (List.replicate 30 'é'))) ∧
    ((List.replicate 50 'a').length = 50 ∧
      len (utf8 (List.replicate 50 'a')) = 50 ∧
      Error (some (utf8 (List.replicate 50 'a'))) ≠ .ok (utf8 (List.replicate 50 'a')) ∧
      Error (some (utf8 (List.replicate 50 'a'))) =
        .ok (utf8 (List.replicate 50 'a') ++ marker)) := by
  decide

/-- C4: `Error` of the `nil` error is the empty string, and `Error` returns a
string for every input: it never panics, the slice `msg[:50]` being taken
only on a message of at least 50 bytes, where it is in bounds. -/
theorem Error_never_fails :
    Error none = .ok [] ∧
    (∀ err : GoError, ∃ s, Error err = .ok s) ∧
    (∀ msg : GoString, ¬ len msg < 50 → sliceTo msg 50 = .ok (msg.take 50)) := by
  refine ⟨rfl, Error_returns, ?_⟩
  intro msg h
  simp [sliceTo, Nat.not_lt.mp h]

theorem Error_never_fails_witness :
    ¬ len (utf8 (List.replicate 50 'a')) < 50 ∧
    sliceTo (utf8 (List.replicate 50 'a')) 50 = .ok ((utf8 (List.replicate 50 'a')).take 50) :=
  ⟨by decide, Error_never_fails.2.2 (utf8 (List.replicate 50 'a')) (by decide)⟩

/-- C10: for every error, the string `Error` returns has at most 53 bytes, and
summarizing an error whose message is that string returns it unchanged:
`Error(errors.New(Error(e))) = Error(e)`. -/
theorem Error_bounded_idempotent (err : GoError) :
    ∃ s, Error err = .ok s ∧ len s ≤ 53 ∧ Error (errors.New s) = .ok s := by
  cases err with
  | none => exact ⟨[], rfl, by decide, by decide⟩
  | some msg =>
    by_cases h : len msg < 50
    · exact ⟨msg, Error_short msg h, by omega, Error_short msg h⟩
    · have h50 : 50 ≤ len msg := Nat.not_lt.mp h
      refine ⟨msg.take 50 ++ marker, Error_long msg h50, ?_, ?_⟩
      · simp only [len] at h50 ⊢
        rw [List.length_append, List.length_take_of_le h50,
          show List.length marker = 3 from len_marker]
      · exact Error_fixed _ (Or.inr ⟨msg, h50, rfl⟩)

end errlimit

/-! ## Properties of `main` -/

theorem log_registry (p : Process) (f : FilterOption) (lvl : Level) (msg : GoString)
    (err : Option GoString) : (p.log f lvl msg err).registry = p.registry := by
  unfold Process.log
  split <;> rfl

theorem handle_registry (p q : Process) (env : Env) (pat : GoString)
    (h : p.handle env pat = .ok q) : q.registry = p.registry ∧ q.logs = p.logs := by
  unfold Process.handle at h
  split at h
  · cases h
  · cases h
    exact ⟨rfl, rfl⟩

theorem serve_registry (c : Config) (env : Env) (f : FilterOption) (p : Process) :
    (serve c env f p).registry = p.registry := by
  unfold serve
  split
  · rfl
  · rename_i p1 h1
    split
    · exact (handle_registry _ _ _ _ h1).1
    · rename_i p2 h2
      split
      · exact ((handle_registry _ _ _ _ h2).1).trans (handle_registry _ _ _ _ h1).1
      · rename_i p3 h3
        have e : p3.registry = p.registry :=
          ((handle_registry _ _ _ _ h3).1.trans (handle_registry _ _ _ _ h2).1).trans
            (handle_registry _ _ _ _ h1).1
        split <;> simp [log_registry, e]

theorem registerAll_kinds (c : Config) (p : Process) :
    (registerAll c p).kinds =
      p.kinds ++ baseKinds ++
        (if c.SpacesAccessKeyID ≠ lit "" ∧ c.SpacesAccessKeySecret ≠ lit "" then [Kind.Spaces]
         else []) := by
  unfold registerAll
  split <;>
    simp [Process.kinds, Process.MustRegister, baseKinds, NewPlainCollector,
      NewResourceCollector, NewIncidentCollector, NewSpacesCollector]

theorem main_kinds (c : Config) (env : Env) (hTok : c.DigitalOceanToken ≠ lit "")
    (hNew : env.godoNew = none) :
    (main c env).kinds =
      baseKinds ++
        (if c.SpacesAccessKeyID ≠ lit "" ∧ c.SpacesAccessKeySecret ≠ lit "" then [Kind.Spaces]
         else []) := by
  have h : (main c env).registry =
      (registerAll c { (if c.SpacesAccessKeyID = lit "" ∧ c.SpacesAccessKeySecret = lit "" then
          (Process.start.log (if c.Debug then .AllowDebug else .AllowInfo) .info
            (lit "starting digitalocean_exporter") none).log
            (if c.Debug then .AllowDebug else .AllowInfo) .warn spacesWarning none
        else Process.start.log (if c.Debug then .AllowDebug else .AllowInfo) .info
            (lit "starting digitalocean_exporter") none) with
          tokenSource := some c, client := true }).registry := by
    simp only [main, hTok, hNew, if_false, serve_registry]
  have hk := registerAll_kinds c { (if c.SpacesAccessKeyID = lit "" ∧ c.SpacesAccessKeySecret = lit "" then
          (Process.start.log (if c.Debug then .AllowDebug else .AllowInfo) .info
            (lit "starting digitalocean_exporter") none).log
            (if c.Debug then .AllowDebug else .AllowInfo) .warn spacesWarning none
        else Process.start.log (if c.Debug then .AllowDebug else .AllowInfo) .info
            (lit "starting digitalocean_exporter") none) with
          tokenSource := some c, client := true }
  unfold Process.kinds at hk ⊢
  rw [h, hk]
  have : List.map Collector.kind ({ (if c.SpacesAccessKeyID = lit "" ∧ c.SpacesAccessKeySecret = lit "" then
          (Process.start.log (if c.Debug then .AllowDebug else .AllowInfo) .info
            (lit "starting digitalocean_exporter") none).log
            (if c.Debug then .AllowDebug else .AllowInfo) .warn spacesWarning none
        else Process.start.log (if c.Debug then .AllowDebug else .AllowInfo) .info
            (lit "starting digitalocean_exporter") none) with
          tokenSource := some c, client := true } : Process).registry = [] := by
    split <;> simp [log_registry, Process.start]
  rw [this]
  rfl

theorem allows_above_debug (f : FilterOption) (lvl : Level) (h : lvl ≠ .debug) :
    f.allows lvl = true := by
  cases f <;> cases lvl <;> simp_all [FilterOption.allows]

theorem serve_frame (c : Config) (env : Env) (f : FilterOption) (p : Process) :
    (serve c env f p).tokenSource = p.tokenSource ∧
    (serve c env f p).client = p.client ∧
    ∃ extra, (serve c env f p).logs = p.logs ++ extra ∧ ∀ e ∈ extra, e.level ≠ .warn := by
  have hi := allows_above_debug f .info (by decide)
  have he := allows_above_debug f .error (by decide)
  unfold serve Process.handle
  cases env.muxRejects p.patterns c.WebPath with
  | some why => exact ⟨rfl, rfl, [], by simp, by simp⟩
  | none =>
    dsimp only
    cases env.muxRejects (p.patterns ++ [c.WebPath]) (lit "/") with
    | some why => exact ⟨rfl, rfl, [], by simp, by simp⟩
    | none =>
      dsimp only
      cases env.muxRejects (p.patterns ++ [c.WebPath] ++ [lit "/"]) (lit "/healthz") with
      | some why => exact ⟨rfl, rfl, [], by simp, by simp⟩
      | none =>
        dsimp only
        cases env.listenAndServe with
        | some err =>
          refine ⟨by simp [Process.log, hi, he], by simp [Process.log, hi, he],
            [⟨.info, lit "listening", none⟩,
             ⟨.error, lit "http listenandserve error", some err⟩], ?_, ?_⟩
          · simp [Process.log, hi, he]
          · intro e hmem
            simp at hmem
            rcases hmem with rfl | rfl <;> simp
        | none =>
          refine ⟨by simp [Process.log, hi], by simp [Process.log, hi],
            [⟨.info, lit "listening", none⟩], ?_, ?_⟩
          · simp [Process.log, hi]
          · intro e hmem
            simp at hmem
            subst hmem
            simp

theorem registerAll_frame (c : Config) (p : Process) :
    (registerAll c p).tokenSource = p.tokenSource ∧ (registerAll c p).client = p.client ∧
    (registerAll c p).logs = p.logs := by
  unfold registerAll
  split <;> simp [Process.MustRegister]

theorem main_frame (c : Config) (env : Env) (hTok : c.DigitalOceanToken ≠ lit "") :
    (main c env).tokenSource = some c ∧
    ∃ extra, (main c env).logs =
        [⟨.info, lit "starting digitalocean_exporter", none⟩] ++
        (if c.SpacesAccessKeyID = lit "" ∧ c.SpacesAccessKeySecret = lit "" then
          [⟨.warn, spacesWarning, none⟩] else []) ++ extra ∧
      ∀ e ∈ extra, e.level ≠ .warn := by
  have hi := allows_above_debug (if c.Debug then .AllowDebug else .AllowInfo) .info (by decide)
  have hw := allows_above_debug (if c.Debug then .AllowDebug else .AllowInfo) .warn (by decide)
  have he := allows_above_debug (if c.Debug then .AllowDebug else .AllowInfo) .error (by decide)
  cases hNew : env.godoNew with
  | some err =>
    refine ⟨?_, [⟨.error, lit "unable to create DigitalOcean API instance", some err⟩], ?_, ?_⟩
    · simp only [main, hTok, hNew, if_false]
      split <;> simp [Process.log, hi, hw, he]
    · simp only [main, hTok, hNew, if_false]
      split <;> simp [Process.log, hi, hw, he, Process.start]
    · intro e hmem
      simp at hmem
      subst hmem
      simp
  | none =>
    simp only [main, hTok, hNew, if_false]
    obtain ⟨h1, _, extra, h3, h4⟩ := serve_frame c env (if c.Debug then .AllowDebug else .AllowInfo)
      (registerAll c { (if c.SpacesAccessKeyID = lit "" ∧ c.SpacesAccessKeySecret = lit "" then
          (Process.start.log (if c.Debug then .AllowDebug else .AllowInfo) .info
            (lit "starting digitalocean_exporter") none).log
            (if c.Debug then .AllowDebug else .AllowInfo) .warn spacesWarning none
        else Process.start.log (if c.Debug then .AllowDebug else .AllowInfo) .info
            (lit "starting digitalocean_exporter") none) with
          tokenSource := some c, client := true })
    obtain ⟨r1, _, r3⟩ := registerAll_frame c
      { (if c.SpacesAccessKeyID = lit "" ∧ c.SpacesAccessKeySecret = lit "" then
          (Process.start.log (if c.Debug then .AllowDebug else .AllowInfo) .info
            (lit "starting digitalocean_exporter") none).log
            (if c.Debug then .AllowDebug else .AllowInfo) .warn spacesWarning none
        else Process.start.log (if c.Debug then .AllowDebug else .AllowInfo) .info
            (lit "starting digitalocean_exporter") none) with
          tokenSource := some c, client := true }
    refine ⟨h1.trans r1, extra, ?_, h4⟩
    rw [h3, r3]
    split <;> simp [Process.log, hi, hw, Process.start]

theorem main_spacesWarnings (c : Config) (env : Env) (hTok : c.DigitalOceanToken ≠ lit "") :
    (main c env).spacesWarnings =
      if c.SpacesAccessKeyID = lit "" ∧ c.SpacesAccessKeySecret = lit "" then 1 else 0 := by
  obtain ⟨_, extra, hlogs, hextra⟩ := main_frame c env hTok
  have hx : (extra.filter fun e => e.level = .warn ∧ e.msg = spacesWarning) = [] := by
    rw [List.filter_eq_nil_iff]
    intro e he
    simp [hextra e he]
  unfold Process.spacesWarnings
  rw [hlogs, List.filter_append, List.filter_append, hx]
  split <;> simp

theorem serve_outcome (c : Config) (env : Env) (f : FilterOption) (p : Process) :
    ((serve c env f p).outcome = p.outcome ∨ (serve c env f p).outcome = .exited 1 ∨
      ∃ why, (serve c env f p).outcome = .panicked (.library why)) ∧
    ((∀ ps pat, env.muxRejects ps pat = none) → env.listenAndServe = none →
      (serve c env f p).outcome = p.outcome) := by
  have hi := allows_above_debug f .info (by decide)
  have he := allows_above_debug f .error (by decide)
  unfold serve Process.handle
  cases h1 : env.muxRejects p.patterns c.WebPath with
  | some why => exact ⟨Or.inr (Or.inr ⟨why, rfl⟩), fun hm _ => by simp [hm] at h1⟩
  | none =>
    dsimp only
    cases h2 : env.muxRejects (p.patterns ++ [c.WebPath]) (lit "/") with
    | some why => exact ⟨Or.inr (Or.inr ⟨why, rfl⟩), fun hm _ => by simp [hm] at h2⟩
    | none =>
      dsimp only
      cases h3 : env.muxRejects (p.patterns ++ [c.WebPath] ++ [lit "/"]) (lit "/healthz") with
      | some why => exact ⟨Or.inr (Or.inr ⟨why, rfl⟩), fun hm _ => by simp [hm] at h3⟩
      | none =>
        dsimp only
        cases h4 : env.listenAndServe with
        | some err => exact ⟨Or.inr (Or.inl rfl), fun _ hl => by simp at hl⟩
        | none => exact ⟨Or.inl (by simp [Process.log, hi]), fun _ _ => by simp [Process.log, hi]⟩

theorem registerAll_outcome (c : Config) (p : Process) :
    (registerAll c p).outcome = p.outcome := by
  unfold registerAll
  split <;> simp [Process.MustRegister]

theorem log_outcome (p : Process) (f : FilterOption) (lvl : Level) (msg : GoString)
    (err : Option GoString) : (p.log f lvl msg err).outcome = p.outcome := by
  unfold Process.log
  split <;> rfl

theorem main_outcome (c : Config) (env : Env) (hTok : c.DigitalOceanToken ≠ lit "") :
    ((main c env).outcome = .serving ∨ (main c env).outcome = .exited 1 ∨
      ∃ why, (main c env).outcome = .panicked (.library why)) ∧
    (env.godoNew = none → (∀ ps pat, env.muxRejects ps pat = none) →
      env.listenAndServe = none → (main c env).outcome = .serving) := by
  cases hNew : env.godoNew with
  | some err =>
    simp [main, hTok, hNew]
  | none =>
    simp only [main, hTok, hNew, if_false]
    generalize hp : ({ (if c.SpacesAccessKeyID = lit "" ∧ c.SpacesAccessKeySecret = lit "" then
          (Process.start.log (if c.Debug then .AllowDebug else .AllowInfo) .info
            (lit "starting digitalocean_exporter") none).log
            (if c.Debug then .AllowDebug else .AllowInfo) .warn spacesWarning none
        else Process.start.log (if c.Debug then .AllowDebug else .AllowInfo) .info
            (lit "starting digitalocean_exporter") none) with
          tokenSource := some c, client := true } : Process) = p
    have hout : p.outcome = .serving := by
      rw [← hp]
      split <;> simp [log_outcome, Process.start]
    obtain ⟨h1, h2⟩ := serve_outcome c env (if c.Debug then .AllowDebug else .AllowInfo)
      (registerAll c p)
    rw [registerAll_outcome, hout] at h1 h2
    exact ⟨h1, fun _ hm hl => h2 hm hl⟩

/-- C5: in every run of `main` that gets past the token check and the
construction of the API client, the Spaces collector is in the registry if
and only if both Spaces keys are non-empty, and the other registered
collectors are the same eighteen in either case. -/
theorem spaces_registered_iff_both_keys (c : Config) (env : Env)
    (hTok : c.DigitalOceanToken ≠ lit "") (hNew : env.godoNew = none) :
    (Kind.Spaces ∈ (main c env).kinds ↔
      c.SpacesAccessKeyID ≠ lit "" ∧ c.SpacesAccessKeySecret ≠ lit "") ∧
    (main c env).kinds.filter (fun k => k ≠ Kind.Spaces) = baseKinds := by
  rw [main_kinds c env hTok hNew]
  by_cases h : c.SpacesAccessKeyID ≠ lit "" ∧ c.SpacesAccessKeySecret ≠ lit ""
  · rw [if_pos h]
    exact ⟨⟨fun _ => h, fun _ => by simp⟩, by decide⟩
  · rw [if_neg h]
    exact ⟨⟨fun hmem => absurd hmem (by decide), fun hh => absurd hh h⟩, by decide⟩

theorem spaces_registered_iff_both_keys_witness :
    (configWith "dop_v1_0" "DO00" "s3cr3t").DigitalOceanToken ≠ lit "" ∧
    (Kind.Spaces ∈ (main (configWith "dop_v1_0" "DO00" "s3cr3t") quietEnv).kinds ↔
      (configWith "dop_v1_0" "DO00" "s3cr3t").SpacesAccessKeyID ≠ lit "" ∧
      (configWith "dop_v1_0" "DO00" "s3cr3t").SpacesAccessKeySecret ≠ lit "") ∧
    (main (configWith "dop_v1_0" "DO00" "s3cr3t") quietEnv).kinds.filter
      (fun k => k ≠ Kind.Spaces) = baseKinds :=
  ⟨by decide,
   spaces_registered_iff_both_keys (configWith "dop_v1_0" "DO00" "s3cr3t") quietEnv
     (by decide) rfl⟩

/-- C6, the code at a configuration with exactly one Spaces key set: the
Spaces collector is not registered, start-up succeeds, and the warning that
Spaces buckets will not be collected is not logged. -/
theorem spaces_warning_missing_with_one_key :
    (configWith "dop_v1_0" "DO00" "").SpacesAccessKeyID ≠ lit "" ∧
    (configWith "dop_v1_0" "DO00" "").SpacesAccessKeySecret = lit "" ∧
    Kind.Spaces ∉ (main (configWith "dop_v1_0" "DO00" "") quietEnv).kinds ∧
    (main (configWith "dop_v1_0" "DO00" "") quietEnv).outcome = .serving ∧
    (main (configWith "dop_v1_0" "DO00" "") quietEnv).spacesWarnings = 0 ∧
    (main (configWith "dop_v1_0" "" "") quietEnv).spacesWarnings = 1 := by
  decide

/-- C7: with an empty `DigitalOceanToken`, `main` panics (exit status 2)
before anything is logged, before the API client is constructed, before any
collector or handler is registered and before the listener is started; with
a non-empty one the check passes (the banner is logged first and the OAuth
client is built on the configuration), nothing but the environment can then
stop start-up, and `Config.Token` returns the configured token and no error. -/
theorem token_required (c : Config) (env : Env) :
    (c.DigitalOceanToken = lit "" →
      (main c env).outcome = .panicked (.explicit (lit "DigitalOcean Token is required")) ∧
      (main c env).outcome.exitStatus = some 2 ∧
      (main c env).logs = [] ∧ (main c env).tokenSource = none ∧
      (main c env).client = false ∧ (main c env).registry = [] ∧
      (main c env).patterns = [] ∧ (main c env).listening = none) ∧
    (c.DigitalOceanToken ≠ lit "" →
      (main c env).outcome ≠ .panicked (.explicit (lit "DigitalOcean Token is required")) ∧
      (main c env).logs.head? = some ⟨.info, lit "starting digitalocean_exporter", none⟩ ∧
      (main c env).tokenSource = some c ∧
      (env.godoNew = none → (∀ ps pat, env.muxRejects ps pat = none) →
        env.listenAndServe = none → (main c env).outcome = .serving)) ∧
    (c.Token).1.AccessToken = c.DigitalOceanToken ∧ (c.Token).2 = none := by
  refine ⟨?_, ?_, rfl, rfl⟩
  · intro h
    simp [main, h, Process.start, Outcome.exitStatus]
  · intro h
    obtain ⟨hts, extra, hlogs, _⟩ := main_frame c env h
    refine ⟨?_, ?_, hts, ?_⟩
    · intro hout
      rcases (main_outcome c env h).1 with h1 | h1 | ⟨why, h1⟩ <;> rw [h1] at hout <;> cases hout
    · rw [hlogs]
      rfl
    · exact (main_outcome c env h).2

theorem token_required_witness :
    (configWith "" "" "").DigitalOceanToken = lit "" ∧
    (main (configWith "" "" "") quietEnv).outcome.exitStatus = some 2 ∧
    (main (configWith "" "" "") quietEnv).registry = [] ∧
    (configWith "dop_v1_0" "" "").DigitalOceanToken ≠ lit "" ∧
    (main (configWith "dop_v1_0" "" "") quietEnv).tokenSource =
      some (configWith "dop_v1_0" "" "") ∧
    (main (configWith "dop_v1_0" "" "") quietEnv).outcome = .serving :=
  ⟨by decide,
   ((token_required (configWith "" "" "") quietEnv).1 (by decide)).2.1,
   ((token_required (configWith "" "" "") quietEnv).1 (by decide)).2.2.2.2.2.1,
   by decide,
   ((token_required (configWith "dop_v1_0" "" "") quietEnv).2.1 (by decide)).2.2.1,
   ((token_required (configWith "dop_v1_0" "" "") quietEnv).2.1 (by decide)).2.2.2 rfl
     (fun _ _ => rfl) rfl⟩

/-! ## Properties of the `/healthz` handler -/

/-- C8: for every request, every server state and every outcome of the write,
the `/healthz` handler sets status 200 and writes exactly the body `ok`; the
calls it makes on the response writer are the same whatever the request, the
configuration, the registry, the error counter and the reachability of the
API, and so is all it does when the logger filter is the same. -/
theorem healthz_always_ok (srv srv' : Server) (r r' : Request)
    (writeErr writeErr' : Option GoString) :
    statusOf (healthz srv r writeErr).1 = some 200 ∧
    bodyOf (healthz srv r writeErr).1 = lit "ok" ∧
    (healthz srv r writeErr).1 = (healthz srv' r' writeErr').1 ∧
    (srv.filter = srv'.filter → healthz srv r writeErr = healthz srv' r' writeErr) := by
  refine ⟨?_, ?_, ?_, ?_⟩
  · cases writeErr <;> rfl
  · cases writeErr <;> rfl
  · cases writeErr <;> cases writeErr' <;> rfl
  · intro h
    cases writeErr <;> simp [healthz, h]

theorem healthz_always_ok_witness :
    (serverWith 0 true []).filter = (serverWith 9 false [NewPlainCollector .Go]).filter ∧
    healthz (serverWith 0 true []) ⟨lit "GET", lit "/healthz", []⟩ none =
      healthz (serverWith 9 false [NewPlainCollector .Go]) ⟨lit "POST", lit "/healthz", lit "x"⟩
        none :=
  ⟨rfl,
   (healthz_always_ok (serverWith 0 true []) (serverWith 9 false [NewPlainCollector .Go])
      ⟨lit "GET", lit "/healthz", []⟩ ⟨lit "POST", lit "/healthz", lit "x"⟩ none none).2.2.2 rfl⟩

/-! ## Properties of the resource collectors -/

namespace collector

theorem Extends.refl (api : Api) (st : ScrapeState) : Extends api st st :=
  ⟨fun _ h => h, fun _ => Nat.le_refl _, fun h => h⟩

theorem Extends.trans {api : Api} {a b c : ScrapeState} (h1 : Extends api a b)
    (h2 : Extends api b c) : Extends api a c :=
  ⟨fun s hs => h2.1 s (h1.1 s hs), fun l => Nat.le_trans (h1.2.1 l) (h2.2.1 l),
   fun h => h2.2.2 (h1.2.2 h)⟩

theorem mem_samplesOf {k : ResourceCollector} {rt : GoString} {recs : List Record} {s : Sample}
    (h : s ∈ samplesOf k rt recs) : s.collector = k.label ∧ s.recordType = rt := by
  simp only [samplesOf, List.mem_flatMap, List.mem_map] at h
  obtain ⟨_, _, _, _, rfl⟩ := h
  exact ⟨rfl, rfl⟩

theorem collectType_step (k : ResourceCollector) (api : Api) (st : ScrapeState) (rt : GoString) :
    ∃ st', collectType k api st rt = .ok st' ∧ Extends api st st' ∧
      (∀ e, fetchAll (api k.label rt) = .error e → st.errors k.label + 1 ≤ st'.errors k.label) ∧
      (∀ recs, fetchAll (api k.label rt) = .ok recs →
        ∀ s ∈ samplesOf k rt recs, s ∈ st'.samples) := by
  unfold collectType
  cases hf : fetchAll (api k.label rt) with
  | error e =>
    obtain ⟨summary, hs⟩ := errlimit.Error_returns (errors.New e.message)
    simp only [hs]
    refine ⟨_, rfl, ⟨fun _ h => h, ?_, fun h => h⟩, ?_, ?_⟩
    · intro l
      simp only [inc]
      split <;> omega
    · intro _ _
      simp [inc]
    · intro recs h
      cases h
  | ok recs =>
    refine ⟨_, rfl, ⟨fun s h => by simp [h], fun _ => Nat.le_refl _, ?_⟩, ?_, ?_⟩
    · intro hclean s hs
      simp only [List.mem_append] at hs
      rcases hs with hs | hs
      · exact hclean s hs
      · obtain ⟨h1, h2⟩ := mem_samplesOf hs
        exact ⟨recs, by rw [h1, h2]; exact hf⟩
    · intro e h
      cases h
    · intro recs' h s hs
      cases h
      simp [hs]

theorem collectTypes_steps (k : ResourceCollector) (api : Api) (rts : List GoString)
    (st : ScrapeState) :
    ∃ st', collectTypes k api rts st = .ok st' ∧ Extends api st st' ∧
      (∀ rt ∈ rts, ∀ e, fetchAll (api k.label rt) = .error e →
        st.errors k.label + 1 ≤ st'.errors k.label) ∧
      (∀ rt ∈ rts, ∀ recs, fetchAll (api k.label rt) = .ok recs →
        ∀ s ∈ samplesOf k rt recs, s ∈ st'.samples) := by
  induction rts generalizing st with
  | nil => exact ⟨st, rfl, Extends.refl api st, by simp, by simp⟩
  | cons rt rest ih =>
    obtain ⟨st1, h1, hx1, hf1, hs1⟩ := collectType_step k api st rt
    obtain ⟨st2, h2, hx2, hf2, hs2⟩ := ih st1
    refine ⟨st2, by simp [collectTypes, h1, h2], hx1.trans hx2, ?_, ?_⟩
    · intro rt' hmem e he
      rcases List.mem_cons.mp hmem with rfl | hmem
      · exact Nat.le_trans (hf1 e he) (hx2.2.1 _)
      · exact Nat.le_trans (Nat.add_le_add_right (hx1.2.1 _) 1) (hf2 rt' hmem e he)
    · intro rt' hmem recs hr s hs
      rcases List.mem_cons.mp hmem with rfl | hmem
      · exact hx2.1 s (hs1 recs hr s hs)
      · exact hs2 rt' hmem recs hr s hs

theorem collectAll_steps (api : Api) (registry : List ResourceCollector) (st : ScrapeState) :
    ∃ st', collectAll api registry st = .ok st' ∧ Extends api st st' ∧
      (∀ k ∈ registry, ∀ rt ∈ k.recordTypes, ∀ e, fetchAll (api k.label rt) = .error e →
        st.errors k.label + 1 ≤ st'.errors k.label) ∧
      (∀ k ∈ registry, ∀ rt ∈ k.recordTypes, ∀ recs, fetchAll (api k.label rt) = .ok recs →
        ∀ s ∈ samplesOf k rt recs, s ∈ st'.samples) := by
  induction registry generalizing st with
  | nil => exact ⟨st, rfl, Extends.refl api st, by simp, by simp⟩
  | cons k rest ih =>
    obtain ⟨st1, h1, hx1, hf1, hs1⟩ := collectTypes_steps k api k.recordTypes st
    obtain ⟨st2, h2, hx2, hf2, hs2⟩ := ih st1
    refine ⟨st2, by simp [collectAll, Collect, h1, h2], hx1.trans hx2, ?_, ?_⟩
    · intro k' hmem rt hrt e he
      rcases List.mem_cons.mp hmem with rfl | hmem
      · exact Nat.le_trans (hf1 rt hrt e he) (hx2.2.1 _)
      · exact Nat.le_trans (Nat.add_le_add_right (hx1.2.1 _) 1) (hf2 k' hmem rt hrt e he)
    · intro k' hmem rt hrt recs hr s hs
      rcases List.mem_cons.mp hmem with rfl | hmem
      · exact hx2.1 s (hs1 rt hrt recs hr s hs)
      · exact hs2 k' hmem rt hrt recs hr s hs

/-- C9: in every scrape cycle, for every registered resource collector and
every record type of it whose provider call fails (timeout included, on any
page), the scrape still returns, its output has no sample of that
collector's failed record type, the error counter under the collector's
label has grown by at least one and no counter has decreased, and the
samples of every successful call of every registered collector are in the
output. -/
theorem failed_call_counts_and_emits_nothing (api : Api) (registry : List ResourceCollector)
    (errs : GoString → Nat) (logs : List LogEntry) (k : ResourceCollector) (rt : GoString)
    (e : ApiFailure) (hk : k ∈ registry) (hrt : rt ∈ k.recordTypes)
    (hfail : fetchAll (api k.label rt) = .error e) :
    ∃ st, scrape api registry errs logs = .ok st ∧
      (∀ s ∈ st.samples, ¬ (s.collector = k.label ∧ s.recordType = rt)) ∧
      errs k.label + 1 ≤ st.errors k.label ∧
      (∀ l, errs l ≤ st.errors l) ∧
      (∀ k' ∈ registry, ∀ rt' ∈ k'.recordTypes, ∀ recs,
        fetchAll (api k'.label rt') = .ok recs → ∀ s ∈ samplesOf k' rt' recs, s ∈ st.samples) := by
  obtain ⟨st, h, hx, hf, hs⟩ :=
    collectAll_steps api registry { samples := [], errors := errs, logs := logs }
  refine ⟨st, h, ?_, hf k hk rt hrt e hfail, hx.2.1, hs⟩
  intro s hmem hsame
  have hclean : Clean api st := hx.2.2 (fun s hs => by cases hs)
  obtain ⟨recs, hr⟩ := hclean s hmem
  rw [hsame.1, hsame.2, hfail] at hr
  cases hr

theorem failed_call_counts_and_emits_nothing_witness :
    fetchAll (sampleApi true sampleCollector.label (lit "databases")) = .error .timeout ∧
    ∃ st, scrape (sampleApi true) [sampleCollector] (fun _ => 7) [] = .ok st ∧
      (∀ s ∈ st.samples,
        ¬ (s.collector = sampleCollector.label ∧ s.recordType = lit "databases")) ∧
      7 + 1 ≤ st.errors sampleCollector.label :=
  ⟨by decide,
   (failed_call_counts_and_emits_nothing (sampleApi true) [sampleCollector] (fun _ => 7) []
      sampleCollector (lit "databases") .timeout (by simp) (by decide) (by decide)).imp
     fun _ h => ⟨h.1, h.2.1, h.2.2.1⟩⟩

end collector

end DOExporter
